import Mathlib

/-!
Verification of the FUSE protocol engine of this repository (uring_fuse):
argument cursor, operation decoding, request dispatch state machine, and the
response/reply encoding layer.  Definitions are shallow embeddings of the Rust
source (`src/fuse/src/uring_fuse/...`); bytes are modelled as natural numbers
below 256, machine integers as `Nat`/`Int` with explicit reduction where
overflow matters.
-/

namespace Spec2Proof

/-! ## Errno values

Modelled from the spec: `low_level/errno.rs` is not under src/.  The spec's
error taxonomy (section 7) names EPROTO, EIO, EACCES and ENOSYS plus arbitrary
per-operation errno values propagated verbatim; we represent an errno by its
Linux integer value. -/

/-- Modelled from the spec: errno EPROTO (unsupported kernel protocol version
at Init), Linux value 71. `errno.rs` is missing from src/. -/
def EPROTO : Int := 71

/-- Modelled from the spec: errno EIO (operation outside the Initialized
window, or an abandoned Reply), Linux value 5. `errno.rs` is missing from
src/. -/
def EIO : Int := 5

/-- Modelled from the spec: errno EACCES (access-control policy violation),
Linux value 13. `errno.rs` is missing from src/. -/
def EACCES : Int := 13

/-- Modelled from the spec: errno ENOSYS (opcode recognized but intentionally
unimplemented), Linux value 38. `errno.rs` is missing from src/. -/
def ENOSYS : Int := 38

/-! ## Argument cursor (`low_level/argument.rs`) -/

/-- Embedding of `ArgumentIterator<'a>`: a cursor over a borrowed byte slice.
`addr` is the machine address of the first remaining byte (`data.as_ptr()`),
kept only so the alignment check of `fetch` can be expressed; `data` is the
remaining bytes. -/
structure ArgumentIterator where
  addr : Nat
  data : List Nat
deriving Repr, DecidableEq

/-- Result of `ArgumentIterator::fetch::<T>`: either the fetched bytes (with
the cursor advanced), `None` for insufficient data, or the alignment panic. -/
inductive FetchOutcome where
  /-- `Some`: the next `size_of::<T>()` bytes, cursor advanced past them. -/
  | ok (bytes : List Nat)
  /-- `None`: not enough data left; the cursor is not modified. -/
  | insufficient
  /-- The `panic!("Data unaligned")` taken when the data pointer is not
  aligned for `T`. -/
  | alignPanic
deriving Repr, DecidableEq

/-- Embedding of `ArgumentIterator::fetch::<T>` where `size = size_of::<T>()`
and `align = align_of::<T>()`.  `zerocopy::LayoutVerified::new_from_prefix`
succeeds iff the slice holds at least `size` bytes and its address is aligned;
on failure the source panics if the address is misaligned and returns `None`
otherwise.  The returned iterator is the cursor state after the call (the
source mutates `self.data` only on success). -/
def ArgumentIterator.fetch (size align : Nat) (it : ArgumentIterator) :
    FetchOutcome × ArgumentIterator :=
  if size ≤ it.data.length ∧ it.addr % align = 0 then
    (.ok (it.data.take size), ⟨it.addr + size, it.data.drop size⟩)
  else if it.addr % align ≠ 0 then
    (.alignPanic, it)
  else
    (.insufficient, it)

/-- Embedding of `ArgumentIterator::fetch_all`: returns all remaining bytes
and consumes them. -/
def ArgumentIterator.fetch_all (it : ArgumentIterator) :
    List Nat × ArgumentIterator :=
  (it.data, ⟨it.addr + it.data.length, []⟩)

/-- Embedding of `memchr::memchr(b, data)`: index of the first occurrence of
byte `b`, if any. -/
def memchr (b : Nat) : List Nat → Option Nat
  | [] => none
  | x :: xs => if x = b then some 0 else (memchr b xs).map (· + 1)

/-- Embedding of `ArgumentIterator::fetch_str`: scan for a NUL terminator;
return the bytes before it and advance the cursor past the terminator, or
return `None` (cursor untouched) when no NUL exists. -/
def ArgumentIterator.fetch_str (it : ArgumentIterator) :
    Option (List Nat) × ArgumentIterator :=
  match memchr 0 it.data with
  | none => (none, it)
  | some len =>
      (some (it.data.take len), ⟨it.addr + len + 1, it.data.drop (len + 1)⟩)

/-! ## Directory entry list buffers (`low_level/file_meta.rs`) -/

/-- Embedding of `EntListBuf`: the append-only, capacity-bounded byte buffer
backing `DirEntList` and `DirEntPlusList`.  The `ResponseBuf` small-vector is
modelled as a plain byte list (inlining is a copy-avoidance detail with no
observable effect on contents). -/
structure EntListBuf where
  max_size : Nat
  buf : List Nat
deriving Repr, DecidableEq

/-- Embedding of `EntListBuf::new(max_size)`. -/
def EntListBuf.new (max_size : Nat) : EntListBuf :=
  ⟨max_size, []⟩

/-- The 8-byte-aligned record size `(entlen + 7) & !7` of `EntListBuf::push`;
for in-range (< 2^64 - 7) sizes the usize mask computation equals rounding up
to the next multiple of 8. -/
def align8 (entlen : Nat) : Nat :=
  (entlen + 7) / 8 * 8

/-- Embedding of `EntListBuf::push(ent)`: returns `true` (buffer full, state
untouched) when the aligned record would overflow `max_size`; otherwise
appends the two record fragments followed by zero padding and returns
`false`. -/
def EntListBuf.push (b : EntListBuf) (ent0 ent1 : List Nat) :
    Bool × EntListBuf :=
  let entlen := ent0.length + ent1.length
  let entsize := align8 entlen
  if b.max_size < b.buf.length + entsize then
    (true, b)
  else
    (false, ⟨b.max_size, b.buf ++ ent0 ++ ent1 ++
      List.replicate (entsize - entlen) 0⟩)

/-! ## Little-endian byte encoding

The kernel ABI structs (`kernel_interface.rs` is not under src/) are laid out
as packed little-endian fields on the target platform; we model struct
serialization (`zerocopy::AsBytes`) field by field. -/

/-- `w` little-endian bytes of `v % 2^(8*w)`. -/
def leEnc : Nat → Nat → List Nat
  | 0, _ => []
  | w + 1, v => v % 256 :: leEnc w (v / 256)

/-- Value of a little-endian byte list. -/
def leDec (bs : List Nat) : Nat :=
  bs.foldr (fun b acc => b + 256 * acc) 0

/-- Two's-complement little-endian encoding of a signed value in `w` bytes. -/
def leEncInt (w : Nat) (v : Int) : List Nat :=
  leEnc w (v % (2 ^ (8 * w) : Nat)).toNat

@[simp]
theorem leEnc_length (w v : Nat) : (leEnc w v).length = w := by
  induction w generalizing v with
  | zero => rfl
  | succ w ih => simp [leEnc, ih]

@[simp]
theorem leEncInt_length (w : Nat) (v : Int) : (leEncInt w v).length = w := by
  simp [leEncInt]

theorem leDec_leEnc (w v : Nat) : leDec (leEnc w v) = v % 2 ^ (8 * w) := by
  induction w generalizing v with
  | zero => simp [leEnc, leDec, Nat.mod_one]
  | succ w ih =>
      have h : leDec (leEnc w (v / 256)) = v / 256 % 2 ^ (8 * w) := ih _
      have hpow : (2 : Nat) ^ (8 * (w + 1)) = 256 * 2 ^ (8 * w) := by
        rw [Nat.mul_succ, pow_add]
        ring
      simp only [leEnc, leDec, List.foldr_cons] at *
      rw [h, hpow, Nat.mod_mul]

theorem leDec_leEnc_of_lt {w v : Nat} (h : v < 2 ^ (8 * w)) :
    leDec (leEnc w v) = v := by
  rw [leDec_leEnc, Nat.mod_eq_of_lt h]

/-- Read `w` bytes from the front of a byte list as a little-endian value,
returning the value and the remaining bytes; fails on short data. -/
def readLE (w : Nat) (bs : List Nat) : Option (Nat × List Nat) :=
  if w ≤ bs.length then some (leDec (bs.take w), bs.drop w) else none

@[simp]
theorem readLE_leEnc (w v : Nat) (rest : List Nat) :
    readLE w (leEnc w v ++ rest) = some (v % 2 ^ (8 * w), rest) := by
  have hlen : (leEnc w v).length = w := leEnc_length w v
  simp [readLE, hlen, List.take_left' hlen, List.drop_left' hlen, leDec_leEnc]

@[simp]
theorem readLE_leEncInt (w : Nat) (v : Int) (rest : List Nat) :
    readLE w (leEncInt w v ++ rest) =
      some ((v % (2 ^ (8 * w) : Nat)).toNat % 2 ^ (8 * w), rest) := by
  simp [leEncInt]

/-! ## File attributes (`low_level/file_meta.rs`) -/

/-- Modelled from the spec: `FileType` lives in the top-level `file_meta.rs`,
which is not under src/; the spec (section 3) lists the kinds
regular/dir/symlink/device/socket/fifo, and `low_level/file_meta.rs` matches
the seven variants below against the `libc::S_IF*` constants. -/
inductive FileType where
  | namedPipe
  | charDevice
  | blockDevice
  | directory
  | regularFile
  | symlink
  | socket
deriving Repr, DecidableEq

/-- Linux `libc::S_IFIFO`. -/
def S_IFIFO : Nat := 0x1000

/-- Linux `libc::S_IFCHR`. -/
def S_IFCHR : Nat := 0x2000

/-- Linux `libc::S_IFBLK`. -/
def S_IFBLK : Nat := 0x6000

/-- Linux `libc::S_IFDIR`. -/
def S_IFDIR : Nat := 0x4000

/-- Linux `libc::S_IFREG`. -/
def S_IFREG : Nat := 0x8000

/-- Linux `libc::S_IFLNK`. -/
def S_IFLNK : Nat := 0xA000

/-- Linux `libc::S_IFSOCK`. -/
def S_IFSOCK : Nat := 0xC000

/-- Embedding of `mode_from_kind_and_perm`: the file-type constant OR-ed with
the (u16) permission bits. -/
def mode_from_kind_and_perm (kind : FileType) (perm : Nat) : Nat :=
  (match kind with
    | .namedPipe => S_IFIFO
    | .charDevice => S_IFCHR
    | .blockDevice => S_IFBLK
    | .directory => S_IFDIR
    | .regularFile => S_IFREG
    | .symlink => S_IFLNK
    | .socket => S_IFSOCK) ||| perm

/-- Modelled from the spec: `FileAttr` lives in the top-level `file_meta.rs`,
which is not under src/.  The spec (section 3) lists ino, size, block count,
timestamps, kind, permission bits, link count, owner uid/gid, device number
and flags; timestamps are already in the signed-seconds/nanoseconds form that
`time_from_system_time` produces (the `SystemTime` conversion itself is out of
scope of the claims). -/
structure FileAttr where
  ino : Nat
  size : Nat
  blocks : Nat
  atime : Int × Nat
  mtime : Int × Nat
  ctime : Int × Nat
  kind : FileType
  perm : Nat
  nlink : Nat
  uid : Nat
  gid : Nat
  rdev : Nat
  blksize : Nat
deriving Repr, DecidableEq

/-- Modelled from the spec: the kernel's packed attribute struct `fuse_attr`
(`kernel_interface.rs` is not under src/), Linux layout with the `abi-7-9`
fields `blksize`/`padding`. -/
structure FuseAttr where
  ino : Nat
  size : Nat
  blocks : Nat
  atime : Int
  mtime : Int
  ctime : Int
  atimensec : Nat
  mtimensec : Nat
  ctimensec : Nat
  mode : Nat
  nlink : Nat
  uid : Nat
  gid : Nat
  rdev : Nat
  blksize : Nat
  padding : Nat
deriving Repr, DecidableEq

/-- Embedding of `fuse_attr_from_attr`: converts a `FileAttr` to the kernel's
packed attribute struct, with `mode` computed by `mode_from_kind_and_perm`. -/
def fuse_attr_from_attr (attr : FileAttr) : FuseAttr :=
  { ino := attr.ino
    size := attr.size
    blocks := attr.blocks
    atime := attr.atime.1
    mtime := attr.mtime.1
    ctime := attr.ctime.1
    atimensec := attr.atime.2
    mtimensec := attr.mtime.2
    ctimensec := attr.ctime.2
    mode := mode_from_kind_and_perm attr.kind attr.perm
    nlink := attr.nlink
    uid := attr.uid
    gid := attr.gid
    rdev := attr.rdev
    blksize := attr.blksize
    padding := 0 }

/-- Modelled from the spec: `zerocopy::AsBytes` serialization of `fuse_attr`
in its Linux `abi-7-9` layout (88 bytes, little-endian fields in declaration
order); `kernel_interface.rs` is not under src/. -/
def FuseAttr.serialize (a : FuseAttr) : List Nat :=
  leEnc 8 a.ino ++ leEnc 8 a.size ++ leEnc 8 a.blocks ++
  leEncInt 8 a.atime ++ leEncInt 8 a.mtime ++ leEncInt 8 a.ctime ++
  leEnc 4 a.atimensec ++ leEnc 4 a.mtimensec ++ leEnc 4 a.ctimensec ++
  leEnc 4 a.mode ++ leEnc 4 a.nlink ++ leEnc 4 a.uid ++ leEnc 4 a.gid ++
  leEnc 4 a.rdev ++ leEnc 4 a.blksize ++ leEnc 4 a.padding

/-! ## Response serialization (`low_level/response.rs`) -/

/-- Embedding of `Response<'a>`: an explicit error code, an owned (possibly
inlined) payload, or a borrowed payload.  The inline-vs-heap distinction of
`ResponseBuf` is a copy-avoidance detail with no observable effect on the
bytes, so both `Data` and `Slice` carry a plain byte list. -/
inductive Response where
  | error (errno : Int)
  | data (buf : List Nat)
  | slice (buf : List Nat)
deriving Repr, DecidableEq

/-- Payload length of a response (`datalen` in `Response::with_iovec`). -/
def Response.datalen : Response → Nat
  | .error _ => 0
  | .data d => d.length
  | .slice d => d.length

/-- Modelled from the spec: the fixed out-header `fuse_out_header`
(`kernel_interface.rs` is not under src/); the spec (section 6) gives its
fields as unique id, error and total length.  Linux layout: `len : u32`,
`error : i32`, `unique : u64`, 16 bytes. -/
structure FuseOutHeader where
  len : Nat
  error : Int
  unique : Nat
deriving Repr, DecidableEq

/-- Byte size of `fuse_out_header`. -/
def fuseOutHeaderSize : Nat := 16

/-- Serialization of `fuse_out_header` (little-endian, `len` then `error`
then `unique`). -/
def FuseOutHeader.serialize (h : FuseOutHeader) : List Nat :=
  leEnc 4 h.len ++ leEncInt 4 h.error ++ leEnc 8 h.unique

/-- Decode a serialized `fuse_out_header`: recover `len`, the signed `error`
field and `unique`. -/
def decodeOutHeader (bs : List Nat) : Option FuseOutHeader := do
  let (len, bs) ← readLE 4 bs
  let (e, bs) ← readLE 4 bs
  let (unique, _) ← readLE 8 bs
  let error : Int := if e < 2 ^ 31 then (e : Int) else (e : Int) - 2 ^ 32
  return ⟨len, error, unique⟩

/-- Embedding of `Response::with_iovec`: the scatter-write buffer sequence for
a response under a given request `unique` id.  The first buffer is the
serialized out-header whose `error` field is the negated errno for `Error`
and `0` otherwise and whose `len` is the header size plus the payload length;
`Error` adds no payload buffer, `Data`/`Slice` add exactly one.  `none`
models the `.expect("Too much data")` panic when the total length exceeds
`u32`. -/
def Response.with_iovec (r : Response) (unique : Nat) :
    Option (List (List Nat)) :=
  let datalen := r.datalen
  if fuseOutHeaderSize + datalen < 2 ^ 32 then
    let header : FuseOutHeader :=
      { len := fuseOutHeaderSize + datalen
        error := match r with
          | .error errno => -errno
          | _ => 0
        unique := unique }
    some (header.serialize ::
      match r with
      | .error _ => []
      | .data d => [d]
      | .slice d => [d])
  else
    none

/-- Embedding of `Response::new_empty`: `Error(0)`. -/
def Response.new_empty : Response := .error 0

/-- Embedding of `Response::new_error`. -/
def Response.new_error (errno : Int) : Response := .error errno

/-- Embedding of `Response::new_data` (the `INLINE_DATA_THRESHOLD` branch only
decides whether the bytes are copied inline, not what they are). -/
def Response.new_data (d : List Nat) : Response := .data d

/-- Modelled from the spec: serialization of `fuse_attr_out`
(`kernel_interface.rs` is not under src/): `attr_valid : u64`,
`attr_valid_nsec : u32`, `dummy : u32`, then the packed `fuse_attr`. -/
def serializeAttrOut (attr_valid : Nat) (attr_valid_nsec : Nat)
    (a : FuseAttr) : List Nat :=
  leEnc 8 attr_valid ++ leEnc 4 attr_valid_nsec ++ leEnc 4 0 ++ a.serialize

/-- Embedding of `Response::new_attr(ttl, attr)`: a `Data` response holding
the serialized `fuse_attr_out`. -/
def Response.new_attr (ttlSecs ttlNsec : Nat) (a : FuseAttr) : Response :=
  .data (serializeAttrOut ttlSecs ttlNsec a)

/-- Recover the `FileType` from the high four mode bits (`mode >> 12`), as
the kernel — and the source's own `typ: mode >> 12` dirent field — reads
them. -/
def kindOfMode (mode : Nat) : Option FileType :=
  if mode / 4096 = S_IFIFO / 4096 then some .namedPipe
  else if mode / 4096 = S_IFCHR / 4096 then some .charDevice
  else if mode / 4096 = S_IFBLK / 4096 then some .blockDevice
  else if mode / 4096 = S_IFDIR / 4096 then some .directory
  else if mode / 4096 = S_IFREG / 4096 then some .regularFile
  else if mode / 4096 = S_IFLNK / 4096 then some .symlink
  else if mode / 4096 = S_IFSOCK / 4096 then some .socket
  else none

/-- Decode the payload bytes emitted by `Response::new_attr`: read the
`fuse_attr_out` layout and recover the inode number, size, file kind and
permission bits (low 12 mode bits). -/
def decodeAttrPayload (bs : List Nat) :
    Option (Nat × Nat × FileType × Nat) := do
  let (_, bs) ← readLE 8 bs
  let (_, bs) ← readLE 4 bs
  let (_, bs) ← readLE 4 bs
  let (ino, bs) ← readLE 8 bs
  let (size, bs) ← readLE 8 bs
  let (_, bs) ← readLE 8 bs
  let (_, bs) ← readLE 8 bs
  let (_, bs) ← readLE 8 bs
  let (_, bs) ← readLE 8 bs
  let (_, bs) ← readLE 4 bs
  let (_, bs) ← readLE 4 bs
  let (_, bs) ← readLE 4 bs
  let (mode, _) ← readLE 4 bs
  let kind ← kindOfMode mode
  return (ino, size, kind, mode % 4096)

/-! ## Raw reply objects (`reply/reply_raw.rs`) -/

/-- Embedding of `ReplyRaw`: the unique id of the request being answered and
whether the sender is still present (`sender : Option<Box<dyn ReplySender>>`;
`hasSender = false` after `take()`).  The channel itself is an external
collaborator, so a send is modelled by the buffer sequence handed to it. -/
structure ReplyRaw where
  unique : Nat
  hasSender : Bool
deriving Repr, DecidableEq

/-- Result of `ReplyRaw::send_ll_mut`: the successor state together with the
buffer sequence handed to the sender (`none` inside models the
`with_iovec` length panic, which cannot happen for error replies), or the
`assert!(self.sender.is_some())` panic on a second completion. -/
inductive SendOutcome where
  | sent (r : ReplyRaw) (msg : Option (List (List Nat)))
  | panicked
deriving Repr, DecidableEq

/-- Embedding of `ReplyRaw::send_ll_mut`: asserts the sender is still
present, takes it (so the reply is now completed) and sends the response's
iovec sequence. -/
def ReplyRaw.send_ll_mut (r : ReplyRaw) (resp : Response) : SendOutcome :=
  if r.hasSender then
    .sent ⟨r.unique, false⟩ (resp.with_iovec r.unique)
  else
    .panicked

/-- Embedding of `ReplyRaw::send_ll`: same as `send_ll_mut`, but consuming
the reply (the terminal methods `ok`/`error` go through it). -/
def ReplyRaw.send_ll (r : ReplyRaw) (resp : Response) : SendOutcome :=
  r.send_ll_mut resp

/-- Embedding of `ReplyRaw::error(err)`: `assert_ne!(err, 0)` then send an
error response; consumes the reply. -/
def ReplyRaw.error (r : ReplyRaw) (err : Int) : SendOutcome :=
  if err = 0 then .panicked else r.send_ll (.error err)

/-- Embedding of `impl Drop for ReplyRaw`: when the reply was discarded
without being completed, send an EIO error reply (and log); otherwise send
nothing.  Returns the buffer sequence sent, if any (for the abandoned case
`with_iovec` of an error response always succeeds). -/
def ReplyRaw.dropRun (r : ReplyRaw) : Option (List (List Nat)) :=
  if r.hasSender then (Response.new_error EIO).with_iovec r.unique else none

/-! ## Session state and request dispatch (`request.rs`) -/

/-- Modelled from the spec: the session access-control policy (`SessionACL`
lives in `session.rs`, which is not under src/); the glossary names the
owner-only, root-and-owner and unrestricted policies, and `dispatch_req`
matches on the `Owner` and `RootAndOwner` variants. -/
inductive SessionACL where
  | all
  | rootAndOwner
  | owner
deriving Repr, DecidableEq

/-- Modelled from the spec: the session state (`session.rs` is not under
src/).  The spec (section 3) lists negotiated protocol major/minor, the
initialized and destroyed flags, the access-control policy and the owner uid;
these are exactly the fields `dispatch_req` reads and writes. -/
structure Session where
  allowed : SessionACL
  session_owner : Nat
  proto_major : Nat
  proto_minor : Nat
  initialized : Bool
  destroyed : Bool
deriving Repr, DecidableEq

/-- The compile-time ABI feature selection (`abi-7-N` cargo features); the
source gates the access-control allow-list and the default init flags on
these, and no feature file is under src/, so they are left as parameters. -/
structure Features where
  abi79 : Bool
  abi710 : Bool
  abi716 : Bool
  abi721 : Bool
  abi728 : Bool
deriving Repr, DecidableEq

/-- `consts::FUSE_ASYNC_READ` (1 << 0). -/
def FUSE_ASYNC_READ : Nat := 1

/-- `consts::FUSE_BIG_WRITES` (1 << 5). -/
def FUSE_BIG_WRITES : Nat := 32

/-- `consts::FUSE_MAX_PAGES` (1 << 22). -/
def FUSE_MAX_PAGES : Nat := 4194304

/-- Embedding of `INIT_FLAGS` (non-macOS): `FUSE_ASYNC_READ`, plus
`FUSE_BIG_WRITES` under `abi-7-10`. -/
def INIT_FLAGS (ft : Features) : Nat :=
  if ft.abi710 then FUSE_ASYNC_READ ||| FUSE_BIG_WRITES else FUSE_ASYNC_READ

/-- Embedding of `default_init_flags`: under `abi-7-28` additionally request
`FUSE_MAX_PAGES` when the kernel reports that capability. -/
def default_init_flags (ft : Features) (capabilities : Nat) : Nat :=
  if ft.abi728 ∧ capabilities &&& FUSE_MAX_PAGES ≠ 0 then
    INIT_FLAGS ft ||| FUSE_MAX_PAGES
  else
    INIT_FLAGS ft

/-- Modelled from the spec: `MAX_WRITE_SIZE` lives in `session.rs`, which is
not under src/; it is the session buffer bound that `KernelConfig::new` uses
as the initial `max_write` (its exact value is irrelevant to the claims). -/
def MAX_WRITE_SIZE : Nat := 16 * 1024 * 1024

/-- Embedding of `KernelConfig` (from `uring_fuse/mod.rs`), restricted to the
fields the dispatch claims touch; the `abi-7-13`/`abi-7-23` gated tunables are
not involved in any claim. -/
structure KernelConfig where
  capabilities : Nat
  requested : Nat
  max_readahead : Nat
  max_max_readahead : Nat
  max_write : Nat
deriving Repr, DecidableEq

/-- Embedding of `KernelConfig::new(capabilities, max_readahead)`. -/
def KernelConfig.new (ft : Features) (capabilities max_readahead : Nat) :
    KernelConfig :=
  { capabilities := capabilities
    requested := default_init_flags ft capabilities
    max_readahead := max_readahead
    max_max_readahead := max_readahead
    max_write := MAX_WRITE_SIZE }

/-- Embedding of `Version` (`low_level/version.rs`): an ABI major/minor pair
whose derived ordering is lexicographic. -/
structure Version where
  major : Nat
  minor : Nat
deriving Repr, DecidableEq

/-- The derived (lexicographic) strict order on `Version`. -/
def Version.lt (a b : Version) : Bool :=
  a.major < b.major ∨ (a.major = b.major ∧ a.minor < b.minor)

/-- Modelled from the spec: `FUSE_KERNEL_VERSION` from `kernel_interface.rs`
(not under src/); the protocol described throughout the spec is FUSE major
version 7. -/
def FUSE_KERNEL_VERSION : Nat := 7

/-- Modelled from the spec: `FUSE_KERNEL_MINOR_VERSION` from
`kernel_interface.rs` (not under src/); the newest minor revision this build
speaks.  Its exact value is irrelevant to the claims. -/
def FUSE_KERNEL_MINOR_VERSION : Nat := 31

/-- The decoded operations (`Operation<'a>` in `low_level/operation.rs`),
payloads elided except for `Init`, whose version/capabilities drive
negotiation.  `ioctl` keeps its `unrestricted` flag since dispatch branches
on it. -/
inductive Op where
  | init (major minor capabilities max_readahead : Nat)
  | destroy
  | lookup
  | forget
  | getattr
  | setattr
  | readlink
  | mknod
  | mkdir
  | unlink
  | rmdir
  | symlink
  | rename
  | link
  | openFile
  | read
  | write
  | flush
  | release
  | fsync
  | opendir
  | readdir
  | releasedir
  | fsyncdir
  | statfs
  | setxattr
  | getxattr
  | listxattr
  | removexattr
  | access
  | create
  | getlk
  | setlk
  | setlkw
  | bmap
  | interrupt
  | ioctl (unrestricted : Bool)
  | poll
  | notifyReply
  | batchForget
  | fallocate
  | readdirplus
  | rename2
  | lseek
  | copyFileRange
  | cuseInit
deriving Repr, DecidableEq

/-- Whether an operation is an `Init`. -/
def Op.isInit : Op → Bool
  | .init .. => true
  | _ => false

/-- The fixed allow-list of `dispatch_req`'s access check: operations the
kernel may issue without a uid set.  The three `cfg` branches of the source
differ only in whether `BatchForget` (from `abi-7-16`) and `ReadDirPlus`
(from `abi-7-21`) are present. -/
def Op.inAllowList (ft : Features) : Op → Bool
  | .init .. => true
  | .destroy => true
  | .read => true
  | .readdir => true
  | .readdirplus => ft.abi721
  | .batchForget => ft.abi721 ∨ ft.abi716
  | .forget => true
  | .write => true
  | .fsync => true
  | .fsyncdir => true
  | .release => true
  | .releasedir => true
  | _ => false

/-- Embedding of the uid test guarding `dispatch_req`'s access check. -/
def aclViolated (se : Session) (uid : Nat) : Bool :=
  (se.allowed = SessionACL.rootAndOwner ∧ uid ≠ se.session_owner ∧ uid ≠ 0) ∨
  (se.allowed = SessionACL.owner ∧ uid ≠ se.session_owner)

/-- The access check of `dispatch_req`: the uid fails the policy and the
operation is not on the allow-list, so the request gets EACCES. -/
def aclRejected (ft : Features) (se : Session) (uid : Nat) (op : Op) : Bool :=
  aclViolated se uid && !(op.inAllowList ft)

/-- Modelled from the spec: the negotiated configuration reply of `Init`
(`fuse_init_out`; `kernel_interface.rs` is not under src/), restricted to the
ungated fields `Init::reply` fills from the request and the config. -/
structure FuseInitOut where
  major : Nat
  minor : Nat
  max_readahead : Nat
  flags : Nat
  max_write : Nat
deriving Repr, DecidableEq

/-- Embedding of `Init::reply(config)`: our version, the configured
readahead and write sizes, and `flags = capabilities & config.requested`. -/
def initReply (capabilities : Nat) (config : KernelConfig) : FuseInitOut :=
  { major := FUSE_KERNEL_VERSION
    minor := FUSE_KERNEL_MINOR_VERSION
    max_readahead := config.max_readahead
    flags := capabilities &&& config.requested
    max_write := config.max_write }

/-- The structured responses `dispatch_req` itself produces (`Ok(Some(_))`
paths): the `Init` negotiation reply and the empty reply of `Destroy`
(`Response::new_empty()`). -/
inductive LLReply where
  | initOut (o : FuseInitOut)
  | empty
deriving Repr, DecidableEq

/-- The filesystem callback invoked by a dispatch, one constructor per
`Filesystem` trait method reachable from `dispatch_req`. -/
inductive FsMethod where
  | initM
  | destroyM
  | lookupM
  | forgetM
  | getattrM
  | setattrM
  | readlinkM
  | mknodM
  | mkdirM
  | unlinkM
  | rmdirM
  | symlinkM
  | renameM
  | linkM
  | openM
  | readM
  | writeM
  | flushM
  | releaseM
  | fsyncM
  | opendirM
  | readdirM
  | releasedirM
  | fsyncdirM
  | statfsM
  | setxattrM
  | getxattrM
  | listxattrM
  | removexattrM
  | accessM
  | createM
  | getlkM
  | setlkM
  | bmapM
  | ioctlM
  | batchForgetM
  | fallocateM
  | readdirplusM
  | lseekM
  | copyFileRangeM
deriving Repr, DecidableEq

/-- The outcome of `dispatch_req`: `Err(errno)` becomes an error reply,
`Ok(Some(resp))` a direct reply, and `Ok(None)` no direct reply (the routed
filesystem method owns the single-use reply object, or the operation takes no
reply at all). -/
inductive ROutcome where
  | error (e : Int)
  | response (r : LLReply)
  | routed
deriving Repr, DecidableEq

/-- Everything observable about one `dispatch_req` call: the session state
afterwards, the filesystem methods invoked during the call, and the
outcome. -/
structure DispatchResult where
  se : Session
  calls : List FsMethod
  out : ROutcome
deriving Repr, DecidableEq

/-- The filesystem method `dispatch_req` routes a non-lifecycle operation to
(after the state-machine guards); `Operation::Interrupt`, unrestricted
`IoCtl`, `Poll`, `NotifyReply` and `CuseInit` are the deterministic ENOSYS
stubs. -/
def routeOp (se : Session) : Op → DispatchResult
  | .interrupt => ⟨se, [], .error ENOSYS⟩
  | .ioctl u =>
      if u then ⟨se, [], .error ENOSYS⟩ else ⟨se, [.ioctlM], .routed⟩
  | .poll => ⟨se, [], .error ENOSYS⟩
  | .notifyReply => ⟨se, [], .error ENOSYS⟩
  | .cuseInit => ⟨se, [], .error ENOSYS⟩
  | .lookup => ⟨se, [.lookupM], .routed⟩
  | .forget => ⟨se, [.forgetM], .routed⟩
  | .getattr => ⟨se, [.getattrM], .routed⟩
  | .setattr => ⟨se, [.setattrM], .routed⟩
  | .readlink => ⟨se, [.readlinkM], .routed⟩
  | .mknod => ⟨se, [.mknodM], .routed⟩
  | .mkdir => ⟨se, [.mkdirM], .routed⟩
  | .unlink => ⟨se, [.unlinkM], .routed⟩
  | .rmdir => ⟨se, [.rmdirM], .routed⟩
  | .symlink => ⟨se, [.symlinkM], .routed⟩
  | .rename => ⟨se, [.renameM], .routed⟩
  | .link => ⟨se, [.linkM], .routed⟩
  | .openFile => ⟨se, [.openM], .routed⟩
  | .read => ⟨se, [.readM], .routed⟩
  | .write => ⟨se, [.writeM], .routed⟩
  | .flush => ⟨se, [.flushM], .routed⟩
  | .release => ⟨se, [.releaseM], .routed⟩
  | .fsync => ⟨se, [.fsyncM], .routed⟩
  | .opendir => ⟨se, [.opendirM], .routed⟩
  | .readdir => ⟨se, [.readdirM], .routed⟩
  | .releasedir => ⟨se, [.releasedirM], .routed⟩
  | .fsyncdir => ⟨se, [.fsyncdirM], .routed⟩
  | .statfs => ⟨se, [.statfsM], .routed⟩
  | .setxattr => ⟨se, [.setxattrM], .routed⟩
  | .getxattr => ⟨se, [.getxattrM], .routed⟩
  | .listxattr => ⟨se, [.listxattrM], .routed⟩
  | .removexattr => ⟨se, [.removexattrM], .routed⟩
  | .access => ⟨se, [.accessM], .routed⟩
  | .create => ⟨se, [.createM], .routed⟩
  | .getlk => ⟨se, [.getlkM], .routed⟩
  | .setlk => ⟨se, [.setlkM], .routed⟩
  | .setlkw => ⟨se, [.setlkM], .routed⟩
  | .bmap => ⟨se, [.bmapM], .routed⟩
  | .batchForget => ⟨se, [.batchForgetM], .routed⟩
  | .fallocate => ⟨se, [.fallocateM], .routed⟩
  | .readdirplus => ⟨se, [.readdirplusM], .routed⟩
  | .rename2 => ⟨se, [.renameM], .routed⟩
  | .lseek => ⟨se, [.lseekM], .routed⟩
  | .copyFileRange => ⟨se, [.copyFileRangeM], .routed⟩
  | .init .. => ⟨se, [], .routed⟩
  | .destroy => ⟨se, [], .routed⟩

/-- Embedding of `Request::dispatch_req`.  The match arms keep the source
order: the access check first, then `Init`, then the not-yet-initialized
guard, then `Destroy`, then the destroyed guard, then routing.  The
filesystem `init` hook (which receives `&mut config` and may fail with its
own errno) is passed in as `fsInit`; the `init`/`destroy` cases of `routeOp`
are unreachable here. -/
def dispatch_req (ft : Features) (fsInit : KernelConfig → Except Int KernelConfig)
    (se : Session) (uid : Nat) (op : Op) : DispatchResult :=
  if aclRejected ft se uid op then
    ⟨se, [], .error EACCES⟩
  else
    match op with
    | .init major minor capabilities max_readahead =>
        if Version.lt ⟨major, minor⟩ ⟨7, 6⟩ then
          ⟨se, [], .error EPROTO⟩
        else
          let se1 := { se with proto_major := major, proto_minor := minor }
          let config := KernelConfig.new ft capabilities max_readahead
          match fsInit config with
          | .error e => ⟨se1, [.initM], .error e⟩
          | .ok config2 =>
              ⟨{ se1 with initialized := true }, [.initM],
                .response (.initOut (initReply capabilities config2))⟩
    | op =>
        if ¬ se.initialized then
          ⟨se, [], .error EIO⟩
        else
          match op with
          | .destroy =>
              ⟨{ se with destroyed := true }, [.destroyM], .response .empty⟩
          | op =>
              if se.destroyed then
                ⟨se, [], .error EIO⟩
              else
                routeOp se op

/-! ## Operation decoding, `FUSE_WRITE` and `FUSE_SETXATTR` arms
(`low_level/op.rs`, `parse`) -/

/-- Outcome of one `parse` arm: `Some(Operation)`, the `None` propagated from
a failed cursor pull (surfaced as `InsufficientData`), the `assert!` panic on
a trailing-length mismatch, or the cursor's alignment panic. -/
inductive ParseOutcome where
  | ok
  | failNone
  | assertPanic
  | alignPanic
deriving Repr, DecidableEq

/-- Modelled from the spec: byte size of `fuse_write_in`
(`kernel_interface.rs` is not under src/); Linux layout `fh : u64`,
`offset : i64`, `size : u32`, `write_flags : u32`, plus
`lock_owner : u64`, `flags : u32`, `padding : u32` under `abi-7-9`. -/
def writeInSize (ft : Features) : Nat :=
  if ft.abi79 then 40 else 24

/-- The `size` field of a serialized `fuse_write_in` (offset 16, u32). -/
def writeInSizeField (argBytes : List Nat) : Nat :=
  leDec ((argBytes.drop 16).take 4)

/-- Embedding of the `FUSE_WRITE` arm of `parse`: pull the fixed
`fuse_write_in` struct, take all remaining bytes as the write data, then
`assert!(out.data().len() == out.arg.size as usize)`. -/
def parse_write (ft : Features) (it : ArgumentIterator) : ParseOutcome :=
  match it.fetch (writeInSize ft) 8 with
  | (.alignPanic, _) => .alignPanic
  | (.insufficient, _) => .failNone
  | (.ok argBytes, it1) =>
      let dat := it1.fetch_all.1
      if dat.length = writeInSizeField argBytes then .ok else .assertPanic

/-- Modelled from the spec: byte size of `fuse_setxattr_in`
(`kernel_interface.rs` is not under src/); Linux layout `size : u32`,
`flags : u32`. -/
def setxattrInSize : Nat := 8

/-- The `size` field of a serialized `fuse_setxattr_in` (offset 0, u32). -/
def setxattrInSizeField (argBytes : List Nat) : Nat :=
  leDec (argBytes.take 4)

/-- Embedding of the `FUSE_SETXATTR` arm of `parse`: pull the fixed
`fuse_setxattr_in` struct, the NUL-terminated attribute name, then all
remaining bytes as the value, and
`assert!(out.value.len() == out.arg.size as usize)`. -/
def parse_setxattr (it : ArgumentIterator) : ParseOutcome :=
  match it.fetch setxattrInSize 4 with
  | (.alignPanic, _) => .alignPanic
  | (.insufficient, _) => .failNone
  | (.ok argBytes, it1) =>
      match it1.fetch_str with
      | (none, _) => .failNone
      | (some _, it2) =>
          let value := it2.fetch_all.1
          if value.length = setxattrInSizeField argBytes then .ok
          else .assertPanic

/-! ## Helper lemmas -/

theorem memchr_eq_none {b : Nat} : ∀ {xs : List Nat}, b ∉ xs →
    memchr b xs = none := by
  intro xs
  induction xs with
  | nil => intro _; rfl
  | cons x xs ih =>
      intro h
      have hx : ¬ x = b := fun hxb => h (hxb ▸ List.mem_cons_self x xs)
      have hxs : b ∉ xs := fun hb => h (List.mem_cons_of_mem x hb)
      simp [memchr, hx, ih hxs]

theorem memchr_split {b : Nat} : ∀ {xs : List Nat}, b ∈ xs →
    memchr b xs = some ((xs.takeWhile (· != b)).length) ∧
    xs.take ((xs.takeWhile (· != b)).length) = xs.takeWhile (· != b) ∧
    xs.drop ((xs.takeWhile (· != b)).length + 1) =
      (xs.dropWhile (· != b)).tail := by
  intro xs
  induction xs with
  | nil => intro h; cases h
  | cons x xs ih =>
      intro h
      by_cases hx : x = b
      · subst hx
        simp [memchr, List.takeWhile, List.dropWhile]
      · have hb : b ∈ xs := by
          rcases List.mem_cons.mp h with h1 | h1
          · exact absurd h1.symm hx
          · exact h1
        obtain ⟨h1, h2, h3⟩ := ih hb
        have hxb : (x != b) = true := by simp [hx]
        refine ⟨?_, ?_, ?_⟩
        · simp [memchr, hx, h1, List.takeWhile, hxb]
        · simp [List.takeWhile, hxb, h2]
        · simp [List.takeWhile, List.dropWhile, hxb, h3]

/-! ## Claim C7: `ArgumentIterator::fetch` -/

/-- Claim C7, counterexample to the claim as stated: with 2 bytes remaining
(fewer than `size_of::<T>() = 8`) but a misaligned data pointer, `fetch` does
not return `None`: it takes the alignment panic, because the source checks
alignment on every `LayoutVerified` failure, including short data. -/
theorem C7_counterexample :
    ([0, 0] : List Nat).length < 8 ∧
    ArgumentIterator.fetch 8 8 ⟨1, [0, 0]⟩ =
      (.alignPanic, ⟨1, [0, 0]⟩) ∧
    (FetchOutcome.alignPanic, (⟨1, [0, 0]⟩ : ArgumentIterator)) ≠
      (FetchOutcome.insufficient, ⟨1, [0, 0]⟩) := by
  refine ⟨by decide, by decide, by decide⟩

/-- Claim C7 (amended): `fetch<T>()` on an aligned cursor returns the next
`size_of::<T>()` bytes and advances past exactly those bytes; on an aligned
cursor with fewer bytes remaining it returns `None` with the cursor state
unchanged; on a misaligned cursor it panics (even when the data is also
short), rather than returning `None`. -/
theorem C7_fetch (size align : Nat) (it : ArgumentIterator) :
    (it.addr % align = 0 → size ≤ it.data.length →
      it.fetch size align =
        (.ok (it.data.take size), ⟨it.addr + size, it.data.drop size⟩) ∧
      (it.data.take size).length = size) ∧
    (it.addr % align = 0 → it.data.length < size →
      it.fetch size align = (.insufficient, it)) ∧
    (it.addr % align ≠ 0 → it.fetch size align = (.alignPanic, it)) := by
  refine ⟨?_, ?_, ?_⟩
  · intro h1 h2
    constructor
    · simp [ArgumentIterator.fetch, h1, h2]
    · simp [List.length_take, Nat.min_eq_left h2]
  · intro h1 h2
    have hn : ¬ (size ≤ it.data.length ∧ it.addr % align = 0) := by
      intro hc
      exact absurd h2 (Nat.not_lt.mpr hc.1)
    simp [ArgumentIterator.fetch, hn, h1, h2]
  · intro h1
    have hn : ¬ (size ≤ it.data.length ∧ it.addr % align = 0) := by
      intro hc
      exact h1 hc.2
    simp [ArgumentIterator.fetch, hn, h1]

/-- Witness for C7's amended theorem at concrete inputs: a successful fetch
of 2 bytes, a `None` on short aligned data, and the alignment panic. -/
theorem C7_fetch_witness :
    ArgumentIterator.fetch 2 1 ⟨0, [9, 8, 7]⟩ = (.ok [9, 8], ⟨2, [7]⟩) ∧
    ArgumentIterator.fetch 8 1 ⟨0, [9]⟩ = (.insufficient, ⟨0, [9]⟩) ∧
    ArgumentIterator.fetch 8 8 ⟨4, [1, 2]⟩ = (.alignPanic, ⟨4, [1, 2]⟩) := by
  refine ⟨?_, ?_, ?_⟩
  · exact ((C7_fetch 2 1 ⟨0, [9, 8, 7]⟩).1 (by decide) (by decide)).1
  · exact (C7_fetch 8 1 ⟨0, [9]⟩).2.1 (by decide) (by decide)
  · exact (C7_fetch 8 8 ⟨4, [1, 2]⟩).2.2 (by decide)

/-! ## Claim C8: `ArgumentIterator::fetch_str` -/

/-- Claim C8: `fetch_str` returns `None` and leaves the cursor unchanged when
the remaining bytes hold no NUL; otherwise it returns exactly the bytes
before the first NUL and advances the cursor past the terminator byte. -/
theorem C8_fetch_str (it : ArgumentIterator) :
    ((0 : Nat) ∉ it.data → it.fetch_str = (none, it)) ∧
    ((0 : Nat) ∈ it.data →
      it.fetch_str =
        (some (it.data.takeWhile (· != 0)),
         ⟨it.addr + (it.data.takeWhile (· != 0)).length + 1,
          (it.data.dropWhile (· != 0)).tail⟩)) := by
  constructor
  · intro h
    simp [ArgumentIterator.fetch_str, memchr_eq_none h]
  · intro h
    obtain ⟨h1, h2, h3⟩ := memchr_split h
    simp [ArgumentIterator.fetch_str, h1, h2, h3]

/-- Witness for C8 at concrete inputs: a buffer `"foo\0x"` and a buffer with
no NUL byte. -/
theorem C8_fetch_str_witness :
    ArgumentIterator.fetch_str ⟨0, [102, 111, 111, 0, 120]⟩ =
      (some [102, 111, 111], ⟨4, [120]⟩) ∧
    ArgumentIterator.fetch_str ⟨3, [102, 111, 111]⟩ =
      (none, ⟨3, [102, 111, 111]⟩) := by
  constructor
  · have h := (C8_fetch_str ⟨0, [102, 111, 111, 0, 120]⟩).2 (by decide)
    simpa using h
  · exact (C8_fetch_str ⟨3, [102, 111, 111]⟩).1 (by decide)

/-! ## Claim C6: directory-entry list buffers -/

/-- Modelled from the spec: serialization of the `fuse_dirent` record header
(`kernel_interface.rs` is not under src/): `ino : u64`, `off : i64`,
`namelen : u32`, `typ : u32`. -/
def fuseDirentBytes (ino : Nat) (off : Int) (namelen typ : Nat) : List Nat :=
  leEnc 8 ino ++ leEncInt 8 off ++ leEnc 4 namelen ++ leEnc 4 typ

/-- Embedding of `DirEntList::push`: build the `fuse_dirent` header (with
`typ = mode_from_kind_and_perm(kind, 0) >> 12`) and push it together with
the name bytes onto the underlying `EntListBuf`. -/
def DirEntList.push (b : EntListBuf) (ino : Nat) (off : Int)
    (kind : FileType) (name : List Nat) : Bool × EntListBuf :=
  EntListBuf.push b
    (fuseDirentBytes ino off name.length (mode_from_kind_and_perm kind 0 >>> 12))
    name

theorem align8_ge (n : Nat) : n ≤ align8 n := by
  unfold align8
  omega

theorem align8_mod (n : Nat) : align8 n % 8 = 0 := by
  unfold align8
  omega

theorem align8_sub_lt (n : Nat) : align8 n - n < 8 := by
  unfold align8
  omega

theorem push_buf_le (b : EntListBuf) (ent0 ent1 : List Nat)
    (h : b.buf.length ≤ b.max_size) :
    (b.push ent0 ent1).2.buf.length ≤ b.max_size ∧
    (b.push ent0 ent1).2.max_size = b.max_size := by
  unfold EntListBuf.push
  by_cases hc : b.max_size < b.buf.length + align8 (ent0.length + ent1.length)
  · simp [hc, h]
  · have hge := align8_ge (ent0.length + ent1.length)
    simp only [hc, if_false]
    constructor
    · simp only [List.length_append, List.length_replicate]
      omega
    · trivial

theorem pushFold_le (ents : List (List Nat × List Nat)) :
    ∀ b : EntListBuf, b.buf.length ≤ b.max_size →
      ((ents.foldl (fun acc e => (acc.push e.1 e.2).2) b).buf.length ≤
         (ents.foldl (fun acc e => (acc.push e.1 e.2).2) b).max_size ∧
       (ents.foldl (fun acc e => (acc.push e.1 e.2).2) b).max_size =
         b.max_size) := by
  induction ents with
  | nil => intro b h; exact ⟨h, rfl⟩
  | cons e ents ih =>
      intro b h
      obtain ⟨h1, h2⟩ := push_buf_le b e.1 e.2 h
      obtain ⟨h3, h4⟩ := ih _ (h2 ▸ h1)
      exact ⟨h3, by simp [List.foldl_cons, h4, h2]⟩

/-- Claim C6: an `EntListBuf` (backing both `DirEntList` and
`DirEntPlusList`) never exceeds its configured maximum under any sequence of
pushes; a push whose 8-byte-aligned record size would overflow returns `true`
leaving the contents untouched; a successful push appends the record
fragments followed by zero padding up to an 8-byte boundary and returns
`false`; and `DirEntList::push` is such a push of the `fuse_dirent` header
plus the name. -/
theorem C6_entlist_push (b : EntListBuf) (ent0 ent1 : List Nat) (m : Nat)
    (ents : List (List Nat × List Nat)) (ino : Nat) (off : Int)
    (kind : FileType) (name : List Nat) :
    (b.buf.length ≤ b.max_size →
      (b.push ent0 ent1).2.buf.length ≤ b.max_size ∧
      (b.push ent0 ent1).2.max_size = b.max_size) ∧
    (b.max_size < b.buf.length + align8 (ent0.length + ent1.length) →
      b.push ent0 ent1 = (true, b)) ∧
    (b.buf.length + align8 (ent0.length + ent1.length) ≤ b.max_size →
      (b.push ent0 ent1).1 = false ∧
      (b.push ent0 ent1).2.buf =
        b.buf ++ ent0 ++ ent1 ++
          List.replicate
            (align8 (ent0.length + ent1.length) - (ent0.length + ent1.length))
            0 ∧
      (b.push ent0 ent1).2.buf.length =
        b.buf.length + align8 (ent0.length + ent1.length) ∧
      align8 (ent0.length + ent1.length) % 8 = 0 ∧
      align8 (ent0.length + ent1.length) - (ent0.length + ent1.length) < 8) ∧
    (ents.foldl (fun acc e => (acc.push e.1 e.2).2)
        (EntListBuf.new m)).buf.length ≤ m ∧
    (b.buf.length ≤ b.max_size →
      (DirEntList.push b ino off kind name).2.buf.length ≤ b.max_size) := by
  refine ⟨fun h => push_buf_le b ent0 ent1 h, ?_, ?_, ?_, ?_⟩
  · intro hc
    simp [EntListBuf.push, hc]
  · intro hc
    have hge := align8_ge (ent0.length + ent1.length)
    have hnc : ¬ b.max_size < b.buf.length + align8 (ent0.length + ent1.length) :=
      Nat.not_lt.mpr hc
    refine ⟨?_, ?_, ?_, align8_mod _, align8_sub_lt _⟩
    · simp [EntListBuf.push, hnc]
    · simp [EntListBuf.push, hnc]
    · simp only [EntListBuf.push, hnc, if_false, List.length_append,
        List.length_replicate]
      omega
  · have h := pushFold_le ents (EntListBuf.new m) (by simp [EntListBuf.new])
    have hm : (EntListBuf.new m).max_size = m := rfl
    omega
  · intro h
    exact (push_buf_le b _ _ h).1

/-- Witness for C6 at concrete inputs: two pushes into a 16-byte buffer, the
second of which would overflow and is refused. -/
theorem C6_entlist_push_witness :
    ((EntListBuf.new 16).push [1, 2, 3] [4, 5]).1 = false ∧
    ((EntListBuf.new 16).push [1, 2, 3] [4, 5]).2.buf =
      [1, 2, 3, 4, 5, 0, 0, 0] ∧
    (((EntListBuf.new 16).push [1, 2, 3] [4, 5]).2.push
        [6, 7, 8, 9, 10, 11, 12, 13] [14]).1 = true ∧
    (((EntListBuf.new 16).push [1, 2, 3] [4, 5]).2.push
        [6, 7, 8, 9, 10, 11, 12, 13] [14]).2.buf =
      [1, 2, 3, 4, 5, 0, 0, 0] ∧
    ([(([1, 2, 3], [4, 5]) : List Nat × List Nat),
      ([6, 7, 8, 9, 10, 11, 12, 13], [14])].foldl
        (fun acc e => (acc.push e.1 e.2).2) (EntListBuf.new 16)).buf.length ≤
      16 := by
  have h1 := (C6_entlist_push (EntListBuf.new 16) [1, 2, 3] [4, 5] 16 []
    0 0 .regularFile []).2.2.1 (by decide)
  have h2 := (C6_entlist_push (((EntListBuf.new 16).push [1, 2, 3] [4, 5]).2)
    [6, 7, 8, 9, 10, 11, 12, 13] [14] 16 [] 0 0 .regularFile []).2.1
    (by decide)
  have h3 := (C6_entlist_push (EntListBuf.new 16) [] [] 16
    [(([1, 2, 3], [4, 5]) : List Nat × List Nat),
     ([6, 7, 8, 9, 10, 11, 12, 13], [14])] 0 0 .regularFile []).2.2.2.1
  refine ⟨by simpa using h1.1, by simpa using h1.2.1, ?_, ?_, h3⟩
  · rw [h2]
  · rw [h2]
    simpa using h1.2.1

/-! ## Claim C5: `Response::with_iovec` -/

theorem readLE_leEnc_nil (w v : Nat) :
    readLE w (leEnc w v) = some (v % 2 ^ (8 * w), []) := by
  have h := readLE_leEnc w v []
  simpa using h

theorem decodeOutHeader_serialize (len : Nat) (error : Int) (unique : Nat)
    (hl : len < 2 ^ 32) (hu : unique < 2 ^ 64)
    (he : -(2 ^ 31) ≤ error ∧ error < 2 ^ 31) :
    decodeOutHeader (FuseOutHeader.serialize ⟨len, error, unique⟩) =
      some ⟨len, error, unique⟩ := by
  have hcast : ((2 ^ 32 : Nat) : Int) = (2 : Int) ^ 32 := by norm_num
  simp only [FuseOutHeader.serialize, List.append_assoc, decodeOutHeader,
    readLE_leEnc, readLE_leEncInt, readLE_leEnc_nil, Option.bind_eq_bind,
    Option.some_bind, Option.pure_def, Option.some.injEq,
    FuseOutHeader.mk.injEq, hcast]
  norm_num
  refine ⟨by omega, ?_, by omega⟩
  split <;> omega

/-- Claim C5: serializing a `Response` under a request `unique` id yields a
buffer sequence headed by the 16-byte out-header whose `unique` field echoes
the id, whose `error` field is the negated errno for an error response and 0
otherwise, and whose `len` field is the header size plus the payload length;
an error response is followed by no payload buffer and a data/slice response
by exactly one. -/
theorem C5_with_iovec (r : Response) (unique : Nat)
    (hu : unique < 2 ^ 64)
    (hd : fuseOutHeaderSize + r.datalen < 2 ^ 32)
    (he : ∀ e, r = .error e → 0 ≤ e ∧ e < 2 ^ 31) :
    ∃ hdrBytes rest,
      r.with_iovec unique = some (hdrBytes :: rest) ∧
      hdrBytes.length = fuseOutHeaderSize ∧
      decodeOutHeader hdrBytes = some
        ⟨fuseOutHeaderSize + r.datalen,
          (match r with | .error e => -e | _ => 0), unique⟩ ∧
      rest = (match r with
        | .error _ => []
        | .data d => [d]
        | .slice d => [d]) := by
  cases r with
  | error e =>
      have hee := he e rfl
      simp only [Response.datalen, fuseOutHeaderSize] at hd ⊢
      refine ⟨FuseOutHeader.serialize ⟨fuseOutHeaderSize + 0, -e, unique⟩,
        [], ?_, ?_, ?_, rfl⟩
      · simp [Response.with_iovec, Response.datalen, fuseOutHeaderSize]
      · simp [FuseOutHeader.serialize, fuseOutHeaderSize]
      · have h := decodeOutHeader_serialize (fuseOutHeaderSize + 0) (-e)
          unique (by simp [fuseOutHeaderSize]) hu (by constructor <;> omega)
        simpa [fuseOutHeaderSize] using h
  | data d =>
      simp only [Response.datalen, fuseOutHeaderSize] at hd ⊢
      refine ⟨FuseOutHeader.serialize
        ⟨fuseOutHeaderSize + d.length, 0, unique⟩, [d], ?_, ?_, ?_, rfl⟩
      · simp [Response.with_iovec, Response.datalen, fuseOutHeaderSize]
        omega
      · simp [FuseOutHeader.serialize, fuseOutHeaderSize]
      · have h := decodeOutHeader_serialize (fuseOutHeaderSize + d.length) 0
          unique (by simp [fuseOutHeaderSize]; omega) hu
          (by constructor <;> norm_num)
        simpa [fuseOutHeaderSize] using h
  | slice d =>
      simp only [Response.datalen, fuseOutHeaderSize] at hd ⊢
      refine ⟨FuseOutHeader.serialize
        ⟨fuseOutHeaderSize + d.length, 0, unique⟩, [d], ?_, ?_, ?_, rfl⟩
      · simp [Response.with_iovec, Response.datalen, fuseOutHeaderSize]
        omega
      · simp [FuseOutHeader.serialize, fuseOutHeaderSize]
      · have h := decodeOutHeader_serialize (fuseOutHeaderSize + d.length) 0
          unique (by simp [fuseOutHeaderSize]; omega) hu
          (by constructor <;> norm_num)
        simpa [fuseOutHeaderSize] using h

/-- Witness for C5 at concrete inputs: an `ENOSYS` error response and a
3-byte data response for request id 9. -/
theorem C5_with_iovec_witness :
    (∃ hdrBytes rest,
      (Response.error ENOSYS).with_iovec 9 = some (hdrBytes :: rest) ∧
      hdrBytes.length = fuseOutHeaderSize ∧
      decodeOutHeader hdrBytes = some ⟨fuseOutHeaderSize, -ENOSYS, 9⟩ ∧
      rest = []) ∧
    (∃ hdrBytes rest,
      (Response.data [1, 2, 3]).with_iovec 9 = some (hdrBytes :: rest) ∧
      hdrBytes.length = fuseOutHeaderSize ∧
      decodeOutHeader hdrBytes = some ⟨fuseOutHeaderSize + 3, 0, 9⟩ ∧
      rest = [[1, 2, 3]]) := by
  constructor
  · have h := C5_with_iovec (.error ENOSYS) 9 (by norm_num)
      (by simp [Response.datalen, fuseOutHeaderSize])
      (by intro e hr; cases hr; constructor <;> norm_num [ENOSYS])
    simpa using h
  · have h := C5_with_iovec (.data [1, 2, 3]) 9 (by norm_num)
      (by simp [Response.datalen, fuseOutHeaderSize])
      (by intro e hr; cases hr)
    simpa using h

/-! ## Claim C4: reply objects complete at most once; dropped replies send EIO -/

/-- Claim C4: a reply with its sender still present can be completed, after
which the sender is gone, any second completion is the assertion panic and
dropping sends nothing; and a reply dropped while never completed sends
exactly one EIO error reply carrying the originating request's unique id. -/
theorem C4_reply_once (r : ReplyRaw) (resp resp2 : Response)
    (h : r.hasSender = true) :
    (∃ r2 m, r.send_ll_mut resp = .sent r2 m ∧ r2.unique = r.unique ∧
      r2.hasSender = false ∧
      r2.send_ll_mut resp2 = .panicked ∧ r2.dropRun = none) ∧
    r.dropRun =
      some [FuseOutHeader.serialize ⟨fuseOutHeaderSize, - EIO, r.unique⟩] := by
  constructor
  · refine ⟨⟨r.unique, false⟩, resp.with_iovec r.unique, ?_, rfl, rfl, ?_, ?_⟩
    · simp [ReplyRaw.send_ll_mut, h]
    · simp [ReplyRaw.send_ll_mut]
    · simp [ReplyRaw.dropRun]
  · simp [ReplyRaw.dropRun, h, Response.new_error, Response.with_iovec,
      Response.datalen, fuseOutHeaderSize]

/-- Witness for C4 at a concrete reply (unique id 7): completing once
succeeds, completing twice panics, dropping the completed reply sends
nothing, and dropping an uncompleted reply sends the EIO header. -/
theorem C4_reply_once_witness :
    (∃ r2 m, ReplyRaw.send_ll_mut ⟨7, true⟩ (.data [5]) = .sent r2 m ∧
      r2.unique = 7 ∧ r2.hasSender = false ∧
      r2.send_ll_mut (.data [5]) = .panicked ∧ r2.dropRun = none) ∧
    ReplyRaw.dropRun ⟨7, true⟩ =
      some [FuseOutHeader.serialize ⟨fuseOutHeaderSize, - EIO, 7⟩] := by
  have h := C4_reply_once ⟨7, true⟩ (.data [5]) (.data [5]) rfl
  simpa using h

/-! ## Claim C10: `parse` asserts on `FUSE_WRITE` / `FUSE_SETXATTR`
trailing-length mismatches -/

/-- Claim C10: once the fixed argument struct of a `FUSE_WRITE`
(resp. `FUSE_SETXATTR`) request decodes, a trailing data (resp. value) length
different from the struct's declared `size` field makes decoding panic via
`assert!` instead of returning `None`; decoding returns the operation exactly
when the lengths agree. -/
theorem C10_parse_assert (ft : Features) (it itx : ArgumentIterator)
    (hal : it.addr % 8 = 0) (hlen : writeInSize ft ≤ it.data.length)
    (halx : itx.addr % 4 = 0) (hlenx : setxattrInSize ≤ itx.data.length)
    (hnul : (0 : Nat) ∈ itx.data.drop setxattrInSize) :
    ((it.data.drop (writeInSize ft)).length ≠
        writeInSizeField (it.data.take (writeInSize ft)) →
      parse_write ft it = .assertPanic) ∧
    ((it.data.drop (writeInSize ft)).length =
        writeInSizeField (it.data.take (writeInSize ft)) →
      parse_write ft it = .ok) ∧
    ((((itx.data.drop setxattrInSize).dropWhile (· != 0)).tail).length ≠
        setxattrInSizeField (itx.data.take setxattrInSize) →
      parse_setxattr itx = .assertPanic) ∧
    ((((itx.data.drop setxattrInSize).dropWhile (· != 0)).tail).length =
        setxattrInSizeField (itx.data.take setxattrInSize) →
      parse_setxattr itx = .ok) := by
  have hfetch : it.fetch (writeInSize ft) 8 =
      (.ok (it.data.take (writeInSize ft)),
       ⟨it.addr + writeInSize ft, it.data.drop (writeInSize ft)⟩) := by
    simp [ArgumentIterator.fetch, hal, hlen]
  have hfetchx : itx.fetch setxattrInSize 4 =
      (.ok (itx.data.take setxattrInSize),
       ⟨itx.addr + setxattrInSize, itx.data.drop setxattrInSize⟩) := by
    simp [ArgumentIterator.fetch, halx, hlenx]
  obtain ⟨hm1, hm2, hm3⟩ := memchr_split hnul
  refine ⟨?_, ?_, ?_, ?_⟩
  · intro h
    simp only [List.length_drop] at h
    simp [parse_write, hfetch, ArgumentIterator.fetch_all, h]
  · intro h
    simp only [List.length_drop] at h
    simp [parse_write, hfetch, ArgumentIterator.fetch_all, h]
  · intro h
    simp only [List.length_tail] at h
    simp [parse_setxattr, hfetchx, ArgumentIterator.fetch_str, hm1, hm3,
      ArgumentIterator.fetch_all, h]
  · intro h
    simp only [List.length_tail] at h
    simp [parse_setxattr, hfetchx, ArgumentIterator.fetch_str, hm1, hm3,
      ArgumentIterator.fetch_all, h]

/-- Witness for C10 at concrete buffers (all ABI features off, so
`fuse_write_in` is 24 bytes): a write whose trailing data is 2 bytes but
whose `size` field says 3 panics, and parses once the field says 2; a
setxattr whose value is 3 bytes parses when its `size` field says 3 and
panics when it says 4. -/
theorem C10_parse_assert_witness :
    parse_write ⟨false, false, false, false, false⟩
      ⟨0, List.replicate 16 0 ++ [3, 0, 0, 0] ++ [0, 0, 0, 0] ++ [7, 7]⟩ =
      .assertPanic ∧
    parse_write ⟨false, false, false, false, false⟩
      ⟨0, List.replicate 16 0 ++ [2, 0, 0, 0] ++ [0, 0, 0, 0] ++ [7, 7]⟩ =
      .ok ∧
    parse_setxattr
      ⟨0, [4, 0, 0, 0, 0, 0, 0, 0] ++ [97, 98, 0] ++ [1, 2, 3]⟩ =
      .assertPanic ∧
    parse_setxattr
      ⟨0, [3, 0, 0, 0, 0, 0, 0, 0] ++ [97, 98, 0] ++ [1, 2, 3]⟩ =
      .ok := by
  refine ⟨?_, ?_, ?_, ?_⟩
  · exact (C10_parse_assert ⟨false, false, false, false, false⟩
      ⟨0, List.replicate 16 0 ++ [3, 0, 0, 0] ++ [0, 0, 0, 0] ++ [7, 7]⟩
      ⟨0, [3, 0, 0, 0, 0, 0, 0, 0] ++ [97, 98, 0] ++ [1, 2, 3]⟩
      (by decide) (by decide) (by decide) (by decide) (by decide)).1
      (by decide)
  · exact (C10_parse_assert ⟨false, false, false, false, false⟩
      ⟨0, List.replicate 16 0 ++ [2, 0, 0, 0] ++ [0, 0, 0, 0] ++ [7, 7]⟩
      ⟨0, [3, 0, 0, 0, 0, 0, 0, 0] ++ [97, 98, 0] ++ [1, 2, 3]⟩
      (by decide) (by decide) (by decide) (by decide) (by decide)).2.1
      (by decide)
  · exact (C10_parse_assert ⟨false, false, false, false, false⟩
      ⟨0, List.replicate 16 0 ++ [2, 0, 0, 0] ++ [0, 0, 0, 0] ++ [7, 7]⟩
      ⟨0, [4, 0, 0, 0, 0, 0, 0, 0] ++ [97, 98, 0] ++ [1, 2, 3]⟩
      (by decide) (by decide) (by decide) (by decide) (by decide)).2.2.1
      (by decide)
  · exact (C10_parse_assert ⟨false, false, false, false, false⟩
      ⟨0, List.replicate 16 0 ++ [2, 0, 0, 0] ++ [0, 0, 0, 0] ++ [7, 7]⟩
      ⟨0, [3, 0, 0, 0, 0, 0, 0, 0] ++ [97, 98, 0] ++ [1, 2, 3]⟩
      (by decide) (by decide) (by decide) (by decide) (by decide)).2.2.2
      (by decide)

/-! ## Claim C1: `Init` dispatch -/

/-- Claim C1, counterexample to the claim as stated: the source rejects every
version below 7.6 under the lexicographic `Version` order, not merely major
versions below 6.  An `Init` with major 6 (not "below 6", so the claim
requires the session to become Initialized) is answered with EPROTO and the
session is left untouched. -/
theorem C1_counterexample :
    ¬ (6 : Nat) < 6 ∧
    dispatch_req ⟨false, false, false, false, false⟩ (fun c => Except.ok c)
      ⟨.owner, 0, 0, 0, false, false⟩ 0 (.init 6 0 0 0) =
      ⟨⟨.owner, 0, 0, 0, false, false⟩, [], .error EPROTO⟩ := by
  constructor
  · decide
  · rfl

/-- Claim C1 (amended): `Init` with a version lexicographically below 7.6
replies EPROTO and leaves the session unchanged (in particular not
Initialized); otherwise the negotiated major/minor are recorded and, when the
filesystem's init hook succeeds with final config `cfg`, the session is
marked Initialized and the reply is the negotiated configuration with
`flags = capabilities & cfg.requested`; when the hook fails its errno is
returned and the session is not marked Initialized. -/
theorem C1_init_dispatch (ft : Features)
    (fsInit : KernelConfig → Except Int KernelConfig) (se : Session)
    (uid : Nat) (major minor capabilities max_readahead : Nat) :
    (Version.lt ⟨major, minor⟩ ⟨7, 6⟩ = true →
      dispatch_req ft fsInit se uid
          (.init major minor capabilities max_readahead) =
        ⟨se, [], .error EPROTO⟩) ∧
    (Version.lt ⟨major, minor⟩ ⟨7, 6⟩ = false →
      (∀ e, fsInit (KernelConfig.new ft capabilities max_readahead) =
          .error e →
        dispatch_req ft fsInit se uid
            (.init major minor capabilities max_readahead) =
          ⟨{ se with proto_major := major, proto_minor := minor },
            [.initM], .error e⟩) ∧
      (∀ cfg, fsInit (KernelConfig.new ft capabilities max_readahead) =
          .ok cfg →
        dispatch_req ft fsInit se uid
            (.init major minor capabilities max_readahead) =
          ⟨{ se with proto_major := major, proto_minor := minor, initialized := true },
            [.initM],
            .response (.initOut
              ⟨FUSE_KERNEL_VERSION, FUSE_KERNEL_MINOR_VERSION,
               cfg.max_readahead, capabilities &&& cfg.requested,
               cfg.max_write⟩)⟩)) := by
  have hacl : aclRejected ft se uid
      (.init major minor capabilities max_readahead) = false := by
    simp [aclRejected, Op.inAllowList]
  refine ⟨?_, fun hv => ⟨?_, ?_⟩⟩
  · intro hv
    simp [dispatch_req, hacl, hv]
  · intro e he
    simp [dispatch_req, hacl, hv, he]
  · intro cfg hc
    simp [dispatch_req, hacl, hv, hc, initReply]

/-- Witness for C1's amended theorem at concrete inputs: a rejected 7.5 Init,
and an accepted 7.31 Init with capabilities 3 under an identity init hook
(default requested flags `FUSE_ASYNC_READ = 1`, so the replied flags are
`3 & 1 = 1`). -/
theorem C1_init_dispatch_witness :
    dispatch_req ⟨false, false, false, false, false⟩ (fun c => Except.ok c)
      ⟨.owner, 0, 0, 0, false, false⟩ 0 (.init 7 5 3 4096) =
      ⟨⟨.owner, 0, 0, 0, false, false⟩, [], .error EPROTO⟩ ∧
    dispatch_req ⟨false, false, false, false, false⟩ (fun c => Except.ok c)
      ⟨.owner, 0, 0, 0, false, false⟩ 0 (.init 7 31 3 4096) =
      ⟨⟨.owner, 0, 7, 31, true, false⟩, [.initM],
        .response (.initOut ⟨FUSE_KERNEL_VERSION, FUSE_KERNEL_MINOR_VERSION,
          4096, 1, MAX_WRITE_SIZE⟩)⟩ := by
  constructor
  · exact (C1_init_dispatch ⟨false, false, false, false, false⟩
      (fun c => Except.ok c) ⟨.owner, 0, 0, 0, false, false⟩ 0
      7 5 3 4096).1 (by decide)
  · have h := ((C1_init_dispatch ⟨false, false, false, false, false⟩
      (fun c => Except.ok c) ⟨.owner, 0, 0, 0, false, false⟩ 0
      7 31 3 4096).2 (by decide)).2
      (KernelConfig.new ⟨false, false, false, false, false⟩ 3 4096) rfl
    simpa [KernelConfig.new, default_init_flags, INIT_FLAGS,
      FUSE_ASYNC_READ] using h

/-! ## Claim C2: the Initialized window -/

/-- Claim C2, counterexample to the claim as stated: a repeated `Destroy` on
an already-destroyed session is not answered with EIO — the `Destroy` match
arm precedes the destroyed-session guard, so the filesystem's destroy hook
runs again and the reply is the empty (errno 0) response. -/
theorem C2_counterexample :
    (dispatch_req ⟨false, false, false, false, false⟩ (fun c => Except.ok c)
      ⟨.all, 0, 7, 31, true, true⟩ 0 .destroy).calls = [.destroyM] ∧
    (dispatch_req ⟨false, false, false, false, false⟩ (fun c => Except.ok c)
      ⟨.all, 0, 7, 31, true, true⟩ 0 .destroy).out = .response .empty ∧
    ROutcome.response .empty ≠ .error EIO := by
  refine ⟨rfl, rfl, by decide⟩

/-- Claim C2 (amended): provided the access check does not already reject the
request, any non-`Init` operation on a not-yet-initialized session is
answered EIO with no filesystem method invoked, and any operation other than
`Init` and `Destroy` on a destroyed session is answered EIO with no
filesystem method invoked (a repeated `Destroy` instead re-runs the destroy
hook and replies empty, and an `Init` renegotiates). -/
theorem C2_initialized_window (ft : Features)
    (fsInit : KernelConfig → Except Int KernelConfig) (se : Session)
    (uid : Nat) (op : Op) (hacl : aclRejected ft se uid op = false) :
    (op.isInit = false → se.initialized = false →
      dispatch_req ft fsInit se uid op = ⟨se, [], .error EIO⟩) ∧
    (op.isInit = false → op ≠ .destroy → se.destroyed = true →
      dispatch_req ft fsInit se uid op = ⟨se, [], .error EIO⟩) := by
  constructor
  · intro hni hinit
    cases op <;> simp_all [dispatch_req, Op.isInit]
  · intro hni hnd hdest
    cases op <;> simp_all [dispatch_req, Op.isInit]

/-- Witness for C2's amended theorem: a `GetAttr` before `Init` and a
`Lookup` after `Destroy` both get EIO with no filesystem call. -/
theorem C2_initialized_window_witness :
    dispatch_req ⟨false, false, false, false, false⟩ (fun c => Except.ok c)
      ⟨.all, 0, 0, 0, false, false⟩ 0 .getattr =
      ⟨⟨.all, 0, 0, 0, false, false⟩, [], .error EIO⟩ ∧
    dispatch_req ⟨false, false, false, false, false⟩ (fun c => Except.ok c)
      ⟨.all, 0, 7, 31, true, true⟩ 0 .lookup =
      ⟨⟨.all, 0, 7, 31, true, true⟩, [], .error EIO⟩ := by
  constructor
  · exact (C2_initialized_window ⟨false, false, false, false, false⟩
      (fun c => Except.ok c) ⟨.all, 0, 0, 0, false, false⟩ 0 .getattr
      (by decide)).1 (by decide) (by decide)
  · exact (C2_initialized_window ⟨false, false, false, false, false⟩
      (fun c => Except.ok c) ⟨.all, 0, 7, 31, true, true⟩ 0 .lookup
      (by decide)).2 (by decide) (by decide) (by decide)

/-! ## Claim C3: access control -/

/-- Claim C3: when the uid fails the session's owner/root-owner policy, every
operation outside the fixed allow-list is answered EACCES before any
filesystem method runs; in particular, under an owner-only policy with a
mismatched uid on a live session, `Read` is routed to the filesystem while
`GetAttr` gets EACCES. -/
theorem C3_access_control (ft : Features)
    (fsInit : KernelConfig → Except Int KernelConfig) (se : Session)
    (uid : Nat) (op : Op) :
    (aclViolated se uid = true → op.inAllowList ft = false →
      dispatch_req ft fsInit se uid op = ⟨se, [], .error EACCES⟩) ∧
    (se.allowed = .owner → uid ≠ se.session_owner →
      se.initialized = true → se.destroyed = false →
      dispatch_req ft fsInit se uid .read = ⟨se, [.readM], .routed⟩ ∧
      dispatch_req ft fsInit se uid .getattr = ⟨se, [], .error EACCES⟩) := by
  constructor
  · intro hv hnl
    have hr : aclRejected ft se uid op = true := by
      simp [aclRejected, hv, hnl]
    simp [dispatch_req, hr]
  · intro hown huid hinit hdest
    have hv : aclViolated se uid = true := by
      simp [aclViolated, hown, huid]
    constructor
    · have hr : aclRejected ft se uid .read = false := by
        simp [aclRejected, Op.inAllowList]
      simp [dispatch_req, hr, hinit, hdest, routeOp]
    · have hr : aclRejected ft se uid .getattr = true := by
        simp [aclRejected, hv, Op.inAllowList]
      simp [dispatch_req, hr]

/-- Witness for C3 at a concrete session (owner policy, owner uid 1000,
caller uid 1001, initialized): `Read` reaches the filesystem, `GetAttr` is
rejected with EACCES. -/
theorem C3_access_control_witness :
    dispatch_req ⟨false, false, false, false, false⟩ (fun c => Except.ok c)
      ⟨.owner, 1000, 7, 31, true, false⟩ 1001 .read =
      ⟨⟨.owner, 1000, 7, 31, true, false⟩, [.readM], .routed⟩ ∧
    dispatch_req ⟨false, false, false, false, false⟩ (fun c => Except.ok c)
      ⟨.owner, 1000, 7, 31, true, false⟩ 1001 .getattr =
      ⟨⟨.owner, 1000, 7, 31, true, false⟩, [], .error EACCES⟩ := by
  exact (C3_access_control ⟨false, false, false, false, false⟩
    (fun c => Except.ok c) ⟨.owner, 1000, 7, 31, true, false⟩ 1001
    .getattr).2 (by decide) (by decide) (by decide) (by decide)

/-! ## Claim C9: file-attribute reply round-trip -/

theorem lor_mul_two_pow_add : ∀ (n c p : Nat), p < 2 ^ n →
    (c * 2 ^ n) ||| p = c * 2 ^ n + p := by
  intro n
  induction n with
  | zero =>
      intro c p hp
      have hp0 : p = 0 := by omega
      subst hp0
      simp
  | succ n ih =>
      intro c p hp
      have hCA : c * 2 ^ (n + 1) = 2 * (c * 2 ^ n) := by ring
      have hdiv : (c * 2 ^ (n + 1)) / 2 = c * 2 ^ n := by omega
      have hmod2 : ((c * 2 ^ (n + 1)) ||| p) % 2 = p % 2 := by
        have hiff := Nat.or_mod_two_eq_one (a := c * 2 ^ (n + 1)) (b := p)
        omega
      have hdiv2 : ((c * 2 ^ (n + 1)) ||| p) / 2 = (c * 2 ^ n) ||| (p / 2) := by
        rw [Nat.or_div_two, hdiv]
      have hpow : (2 : Nat) ^ (n + 1) = 2 * 2 ^ n := by ring
      have hih : (c * 2 ^ n) ||| (p / 2) = c * 2 ^ n + p / 2 :=
        ih c (p / 2) (by omega)
      rw [hih] at hdiv2
      omega

theorem lor_const_add (c p : Nat) (hp : p < 4096) :
    (c * 4096) ||| p = c * 4096 + p := by
  have h4096 : (4096 : Nat) = 2 ^ 12 := by norm_num
  rw [h4096]
  exact lor_mul_two_pow_add 12 c p (h4096 ▸ hp)

theorem kindOfMode_const_add (c p : Nat) (hp : p < 4096) :
    ((c * 4096) ||| p) / 4096 = c ∧ ((c * 4096) ||| p) % 4096 = p ∧
    (c ≤ 15 → (c * 4096) ||| p < 65536) := by
  rw [lor_const_add c p hp]
  refine ⟨by omega, by omega, by omega⟩

theorem mode_roundtrip (k : FileType) (p : Nat) (hp : p < 4096) :
    kindOfMode (mode_from_kind_and_perm k p) = some k ∧
    mode_from_kind_and_perm k p % 4096 = p ∧
    mode_from_kind_and_perm k p < 65536 := by
  cases k
  case namedPipe =>
    have h := kindOfMode_const_add 1 p hp
    norm_num at h
    obtain ⟨h1, h2, h3⟩ := h
    simp only [mode_from_kind_and_perm, S_IFIFO]
    exact ⟨by simp [kindOfMode, h1, S_IFIFO, S_IFCHR, S_IFBLK, S_IFDIR,
      S_IFREG, S_IFLNK, S_IFSOCK], h2, h3⟩
  case charDevice =>
    have h := kindOfMode_const_add 2 p hp
    norm_num at h
    obtain ⟨h1, h2, h3⟩ := h
    simp only [mode_from_kind_and_perm, S_IFCHR]
    exact ⟨by simp [kindOfMode, h1, S_IFIFO, S_IFCHR, S_IFBLK, S_IFDIR,
      S_IFREG, S_IFLNK, S_IFSOCK], h2, h3⟩
  case blockDevice =>
    have h := kindOfMode_const_add 6 p hp
    norm_num at h
    obtain ⟨h1, h2, h3⟩ := h
    simp only [mode_from_kind_and_perm, S_IFBLK]
    exact ⟨by simp [kindOfMode, h1, S_IFIFO, S_IFCHR, S_IFBLK, S_IFDIR,
      S_IFREG, S_IFLNK, S_IFSOCK], h2, h3⟩
  case directory =>
    have h := kindOfMode_const_add 4 p hp
    norm_num at h
    obtain ⟨h1, h2, h3⟩ := h
    simp only [mode_from_kind_and_perm, S_IFDIR]
    exact ⟨by simp [kindOfMode, h1, S_IFIFO, S_IFCHR, S_IFBLK, S_IFDIR,
      S_IFREG, S_IFLNK, S_IFSOCK], h2, h3⟩
  case regularFile =>
    have h := kindOfMode_const_add 8 p hp
    norm_num at h
    obtain ⟨h1, h2, h3⟩ := h
    simp only [mode_from_kind_and_perm, S_IFREG]
    exact ⟨by simp [kindOfMode, h1, S_IFIFO, S_IFCHR, S_IFBLK, S_IFDIR,
      S_IFREG, S_IFLNK, S_IFSOCK], h2, h3⟩
  case symlink =>
    have h := kindOfMode_const_add 10 p hp
    norm_num at h
    obtain ⟨h1, h2, h3⟩ := h
    simp only [mode_from_kind_and_perm, S_IFLNK]
    exact ⟨by simp [kindOfMode, h1, S_IFIFO, S_IFCHR, S_IFBLK, S_IFDIR,
      S_IFREG, S_IFLNK, S_IFSOCK], h2, h3⟩
  case socket =>
    have h := kindOfMode_const_add 12 p hp
    norm_num at h
    obtain ⟨h1, h2, h3⟩ := h
    simp only [mode_from_kind_and_perm, S_IFSOCK]
    exact ⟨by simp [kindOfMode, h1, S_IFIFO, S_IFCHR, S_IFBLK, S_IFDIR,
      S_IFREG, S_IFLNK, S_IFSOCK], h2, h3⟩

/-- Claim C9, counterexample to the claim as stated: the claim quantifies
over every `FileAttr`, but a `FileAttr` whose (u16) `perm` has bits in the
`S_IFMT` range — here `perm = 0xF000` on a regular file — corrupts the mode:
`S_IFREG | 0xF000 = 0xF000`, from which neither the kind nor the permission
bits can be recovered from the emitted bytes. -/
theorem C9_counterexample :
    decodeAttrPayload (serializeAttrOut 0 0 (fuse_attr_from_attr
      ⟨1, 2, 0, (0, 0), (0, 0), (0, 0), .regularFile, 61440,
        0, 0, 0, 0, 0⟩)) = none ∧
    (none : Option (Nat × Nat × FileType × Nat)) ≠
      some (1, 2, FileType.regularFile, 61440) := by
  constructor
  · rfl
  · decide

/-- Claim C9 (amended): for every `FileAttr` whose ino and size fit in 64
bits and whose permission bits fit in the low 12 mode bits (`perm < 0o10000`),
building the attribute reply via `fuse_attr_from_attr` and `Response::new_attr`
and decoding the emitted `fuse_attr_out` bytes recovers the same ino, size,
kind and permission bits. -/
theorem C9_attr_roundtrip (a : FileAttr) (hino : a.ino < 2 ^ 64)
    (hsize : a.size < 2 ^ 64) (hperm : a.perm < 4096) (ttlS ttlN : Nat) :
    Response.new_attr ttlS ttlN (fuse_attr_from_attr a) =
      .data (serializeAttrOut ttlS ttlN (fuse_attr_from_attr a)) ∧
    decodeAttrPayload (serializeAttrOut ttlS ttlN (fuse_attr_from_attr a)) =
      some (a.ino, a.size, a.kind, a.perm) := by
  refine ⟨rfl, ?_⟩
  obtain ⟨hk, hm, hlt⟩ := mode_roundtrip a.kind a.perm hperm
  simp only [serializeAttrOut, FuseAttr.serialize, fuse_attr_from_attr,
    List.append_assoc, decodeAttrPayload, readLE_leEnc, readLE_leEncInt,
    Option.bind_eq_bind, Option.some_bind, Option.pure_def]
  norm_num
  rw [Nat.mod_eq_of_lt (by omega : mode_from_kind_and_perm a.kind a.perm <
    4294967296)]
  rw [hk]
  simp only [Option.some_bind]
  rw [Nat.mod_eq_of_lt (by omega : a.ino < 18446744073709551616),
    Nat.mod_eq_of_lt (by omega : a.size < 18446744073709551616), hm]

/-- Witness for C9's amended theorem at a concrete attribute: a directory
with ino 5, size 6 and permissions 0o755. -/
theorem C9_attr_roundtrip_witness :
    decodeAttrPayload (serializeAttrOut 1 2 (fuse_attr_from_attr
      ⟨5, 6, 7, (3, 4), (5, 6), (7, 8), .directory, 493,
        2, 1000, 1000, 0, 4096⟩)) =
      some (5, 6, FileType.directory, 493) := by
  exact (C9_attr_roundtrip
    ⟨5, 6, 7, (3, 4), (5, 6), (7, 8), .directory, 493, 2, 1000, 1000, 0, 4096⟩
    (by norm_num) (by norm_num) (by norm_num) 1 2).2

end Spec2Proof
